import Mathlib

/-!
# BtcTunnel client — shallow embedding and verification

A shallow embedding of the multiplexer client in `src/Client.cc` of
lake2010/BtcTunnel: the frame codec (`readKcpMsg`, `sendKcpCloseMsg`,
`handleIncomingTCPMesasge`), the connection table operations
(`addConnection`, `removeConnection`, `handleKcpMsg_closeConn`, `stop`),
the connection-index counter of `listenerCallback`, and the KCP
conversation handshake (`sendInitKCPConvPkg`, `recvInitKCPConvPkg`,
`checkInitKCP`).

Bytes are `Nat` values; machine-integer casts are modelled with explicit
`% 256`, `% 65536`, `% 2 ^ 32`, `% 2 ^ 64` where the source performs a
truncating cast or fixed-width arithmetic.
-/

namespace BtcTunnel

/-! ## Byte-level primitives (little-endian, as the casts in `Client.cc`) -/

/-- Write a 16-bit little-endian value, as `*(uint16_t *)p = v` does:
the two stored bytes are the low bytes of `v`. -/
def putLE16 (v : Nat) : List Nat := [v % 256, v / 256 % 256]

/-- Read a 16-bit little-endian value from two bytes, as
`*(uint16_t *)p` does (bytes re-interpreted modulo 256). -/
def getLE16 (b0 b1 : Nat) : Nat := b0 % 256 + 256 * (b1 % 256)

/-- Write a 32-bit little-endian value, as `*(uint32_t *)p = v` does. -/
def putLE32 (v : Nat) : List Nat :=
  [v % 256, v / 256 % 256, v / 65536 % 256, v / 16777216 % 256]

/-- Read a 32-bit little-endian value at offset `off` of a byte list,
as `*(uint32_t *)(p + off)` does. -/
def getLE32 (p : List Nat) (off : Nat) : Nat :=
  p.getD off 0 % 256 + 256 * (p.getD (off + 1) 0 % 256) +
    65536 * (p.getD (off + 2) 0 % 256) + 16777216 * (p.getD (off + 3) 0 % 256)

/-- `size_t` subtraction `a - b` (64-bit wrap-around), used to model
`msg.size() - 4` in the data-frame dispatch of `readKcpMsg`. -/
def sizeT_sub (a b : Nat) : Nat := (a + 2 ^ 64 - b) % 2 ^ 64

/-! ## Protocol constants (from `Client.h` usage in `Client.cc`) -/

/-- The reserved control connection index. -/
def KCP_MSG_CONNIDX_NONE : Nat := 0

/-- The CLOSE_CONN control message type byte. -/
def KCP_MSG_TYPE_CLOSE_CONN : Nat := 1

/-- The KEEPALIVE control message type byte. -/
def KCP_MSG_TYPE_KEEPALIVE : Nat := 2

/-! ## Frame codec -/

/-- The CLOSE_CONN control frame built by `Client::sendKcpCloseMsg`:
`| len(2)=7 | connIdx(2)=0 | type(1)=0x01 | connIdx(2) |`. -/
def kcpCloseMsg (connIdx : Nat) : List Nat :=
  putLE16 7 ++ putLE16 KCP_MSG_CONNIDX_NONE ++ [KCP_MSG_TYPE_CLOSE_CONN] ++
    putLE16 connIdx

/-- The KEEPALIVE control frame built by `Client::kcpKeepAlive`:
`| len(2)=5 | connIdx(2)=0 | type(1)=0x02 |`. -/
def kcpKeepAliveMsg : List Nat :=
  putLE16 5 ++ putLE16 KCP_MSG_CONNIDX_NONE ++ [KCP_MSG_TYPE_KEEPALIVE]

/-- A data frame built by one iteration of `Client::handleIncomingTCPMesasge`:
`| len(2) | connIdx(2) | payload |` with `len = 4 + payload size`
(stored through a truncating `uint16_t` cast). -/
def kcpDataMsg (connIdx : Nat) (chunk : List Nat) : List Nat :=
  putLE16 (4 + chunk.length) ++ putLE16 connIdx ++ chunk

/-- `UINT16_MAX - 4`, the chunk bound in `Client::handleIncomingTCPMesasge`. -/
def maxMsgLen : Nat := 65535 - 4

/-- `Client::handleIncomingTCPMesasge`: chunk the TCP input into slices of
at most `maxMsgLen` bytes and build one data frame per slice, in order.
Returns the list of KCP messages passed to `sendKcpMsg`. -/
def handleIncomingTCPMesasge (connIdx : Nat) (msg : List Nat) : List (List Nat) :=
  if h : msg.length = 0 then []
  else
    let len := min maxMsgLen msg.length
    kcpDataMsg connIdx (msg.take len) :: handleIncomingTCPMesasge connIdx (msg.drop len)
termination_by msg.length
decreasing_by
  simp only [List.length_drop]
  simp only [maxMsgLen]
  omega

/-- One decoded frame: the `msglen` and `connIdx` header fields read by
`Client::readKcpMsg`, and `msg`, the `msglen` bytes removed from the
reassembly buffer (the whole frame, header included). -/
structure KcpFrame where
  msglen : Nat
  connIdx : Nat
  msg : List Nat
deriving DecidableEq

/-- The result of one `Client::readKcpMsg` call: its boolean return value
`ok`, the reassembly buffer `buf` after the call, and the frame removed
(if any). -/
structure ReadKcpMsgResult where
  ok : Bool
  buf : List Nat
  frame : Option KcpFrame
deriving DecidableEq

/-- `Client::readKcpMsg` on the reassembly buffer `kcpInBuf_`:
if fewer than 4 bytes are buffered, return `false`; read `msglen` from the
first two bytes (little-endian); if fewer than `msglen` bytes are buffered,
return `false`; otherwise remove `msglen` bytes and return `true` with the
frame.  Note the source checks neither `msglen ≥ 4` nor anything else
about `msglen`. -/
def readKcpMsg (buf : List Nat) : ReadKcpMsgResult :=
  if buf.length < 4 then ⟨false, buf, none⟩
  else if buf.length < getLE16 (buf.getD 0 0) (buf.getD 1 0) then ⟨false, buf, none⟩
  else
    ⟨true, buf.drop (getLE16 (buf.getD 0 0) (buf.getD 1 0)),
      some ⟨getLE16 (buf.getD 0 0) (buf.getD 1 0),
            getLE16 (buf.getD 2 0) (buf.getD 3 0),
            buf.take (getLE16 (buf.getD 0 0) (buf.getD 1 0))⟩⟩

/-- The `(connIdx, len)` argument pair that `readKcpMsg` passes to
`Client::handleKcpMsg` on the data-frame path: the pointer length is
`msg.size() - 4` computed in `size_t` arithmetic. -/
def handleKcpMsgArgs (f : KcpFrame) : Nat × Nat :=
  (f.connIdx, sizeT_sub f.msg.length 4)

/-- The `while (readKcpMsg()) {}` loop of
`Client::handleIncomingUDPMesasge`, with explicit fuel: run decode steps
while they return `true`, threading the buffer. -/
def readKcpLoop : Nat → List Nat → List Nat
  | 0, buf => buf
  | n + 1, buf =>
    let r := readKcpMsg buf
    if r.ok then readKcpLoop n r.buf else buf

/-- Concatenation of a list of byte lists, in order. -/
def concatBytes (l : List (List Nat)) : List Nat := l.foldr (fun a b => a ++ b) []

/-! ## Client state and connection table

The mutable state of `Client` that the table and shutdown operations
touch: the connection table `conns_` (an association list connection
index ↦ session identity, mirroring the `std::map` keyed by `connIdx_`),
the ordered list of KCP messages handed to `ikcp_send` via `sendKcpMsg`,
the sessions destroyed with `delete`, the `running_` flag, the listener
enable state, the one-shot exit timer, and whether the event loop was
broken. -/

structure ClientState where
  conns : List (Nat × Nat)
  sentFrames : List (List Nat)
  destroyedSessions : List Nat
  running : Bool
  listenerEnabled : Bool
  exitTimer : Option Nat
  loopBroken : Bool
deriving DecidableEq

/-- `Client::sendKcpMsg`: hand one framed message to the KCP engine
(recorded in emission order). -/
def sendKcpMsg (st : ClientState) (msg : List Nat) : ClientState :=
  { st with sentFrames := st.sentFrames ++ [msg] }

/-- `Client::sendKcpCloseMsg`: build the CLOSE_CONN frame and send it. -/
def sendKcpCloseMsg (st : ClientState) (connIdx : Nat) : ClientState :=
  sendKcpMsg st (kcpCloseMsg connIdx)

/-- `conns_.find(idx)`: the session stored under `idx`, if any. -/
def connsFind (conns : List (Nat × Nat)) (idx : Nat) : Option Nat :=
  (conns.find? (fun p => p.1 == idx)).map Prod.snd

/-- `conns_.erase(idx)`: drop the entry keyed `idx`. -/
def connsErase (conns : List (Nat × Nat)) (idx : Nat) : List (Nat × Nat) :=
  conns.filter (fun p => p.1 != idx)

/-- `conns_.insert(make_pair(idx, session))`: `std::map::insert` is a
no-op when the key is already present. -/
def connsInsert (conns : List (Nat × Nat)) (s : Nat × Nat) : List (Nat × Nat) :=
  if (conns.find? (fun p => p.1 == s.1)).isSome then conns else conns ++ [s]

/-- `Client::addConnection`: apply timeouts (no state here) and insert
the session into the table.  No collision check is performed. -/
def addConnection (st : ClientState) (session : Nat × Nat) : ClientState :=
  { st with conns := connsInsert st.conns session }

/-- `Client::removeConnection(session, isNeedSendCloseMsg)`: optionally
emit CLOSE_CONN for the session's index — unconditionally, before any
table lookup — then erase the index from the table and `delete` the
session. -/
def removeConnection (st : ClientState) (session : Nat × Nat)
    (isNeedSendCloseMsg : Bool) : ClientState :=
  let st1 := if isNeedSendCloseMsg then sendKcpCloseMsg st session.1 else st
  { st1 with conns := connsErase st1.conns session.1,
             destroyedSessions := st1.destroyedSessions ++ [session.2] }

/-- `Client::handleKcpMsg_closeConn`: read the victim index from bytes 5–6
of the control frame; if it is in the table remove it without sending a
close frame, otherwise log and do nothing. -/
def handleKcpMsg_closeConn (st : ClientState) (msg : List Nat) : ClientState :=
  match connsFind st.conns (getLE16 (msg.getD 5 0) (msg.getD 6 0)) with
  | none => st
  | some sid =>
    removeConnection st (getLE16 (msg.getD 5 0) (msg.getD 6 0), sid) false

/-- `Client::stop`: no-op when already stopped; otherwise clear
`running_`, disable the listener, remove every connection with a close
frame, and arm the one-shot 3-second exit timer. -/
def stop (st : ClientState) : ClientState :=
  if st.running = false then st
  else
    { st.conns.foldl (fun s c => removeConnection s c true)
        { st with running := false, listenerEnabled := false } with
      exitTimer := some 3 }

/-- `Client::exitLoop` (the exit timer's callback target): break the
event loop. -/
def exitLoop (st : ClientState) : ClientState := { st with loopBroken := true }

/-! ## Connection-index allocation (`Client::listenerCallback`) -/

/-- The `connIdx++` step on the function-local `static uint16_t` counter. -/
def listenerNextIdx (connIdx : Nat) : Nat := (connIdx + 1) % 65536

/-- The counter value after `n` accepts.  It starts at `1`; the index
issued by the `n`-th accept (`n ≥ 1`) is `connIdxCounter n`.  The source
performs no skip of `0` and no collision check against the table. -/
def connIdxCounter : Nat → Nat
  | 0 => 1
  | n + 1 => listenerNextIdx (connIdxCounter n)

/-! ## KCP conversation handshake -/

/-- `Client::sendInitKCPConvPkg`: the fixed 12-byte handshake datagram
`00 00 00 00 | conv(LE32) | conv+1(LE32)` (all stores through `uint32_t`). -/
def sendInitKCPConvPkg (kcpConv : Nat) : List Nat :=
  putLE32 0 ++ putLE32 kcpConv ++ putLE32 (kcpConv + 1)

/-- `Client::recvInitKCPConvPkg`: test a received datagram against the
three 32-bit fields (`uint32_t` comparisons). -/
def recvInitKCPConvPkg (kcpConv : Nat) (p : List Nat) : Bool :=
  getLE32 p 0 == 0 && getLE32 p 4 == kcpConv % 2 ^ 32 &&
    getLE32 p 8 == (kcpConv + 1) % 2 ^ 32

/-- The handshake gate of `Client::handleIncomingUDPMesasge`:
`inDataSize == 12 && recvInitKCPConvPkg(inData)`.  Exactly when it is
`true` the source sets `isInitKCPConv_` (handshake complete). -/
def handshakeMatches (kcpConv : Nat) (p : List Nat) : Bool :=
  p.length == 12 && recvInitKCPConvPkg kcpConv p

/-- The action taken by one firing of the 1-second handshake timer
(`Client::checkInitKCP`). -/
inductive InitAction where
  | loopBreak
  | abortTimeout
  | resend (datagram : List Nat)
deriving DecidableEq

/-- `Client::checkInitKCP`: break the loop once the conversation is
acknowledged; abort when more than 10 seconds have passed since the
first check; otherwise retransmit the handshake datagram. -/
def checkInitKCP (kcpConv : Nat) (isInitKCPConv : Bool)
    (now startTime : Nat) : InitAction :=
  if isInitKCPConv then .loopBreak
  else if startTime + 10 < now then .abortTimeout
  else .resend (sendInitKCPConvPkg kcpConv)

/-! ## Demonstration states used by concrete instances -/

/-- A client state with live indices 2 and 5. -/
def demoTableState : ClientState :=
  { conns := [(2, 9), (5, 11)], sentFrames := [], destroyedSessions := [],
    running := true, listenerEnabled := true, exitTimer := none,
    loopBroken := false }

/-- A client state with only index 2 live (session identity 1). -/
def demoC9State : ClientState :=
  { conns := [(2, 1)], sentFrames := [], destroyedSessions := [],
    running := true, listenerEnabled := true, exitTimer := none,
    loopBroken := false }

/-- A running client state with live indices 2, 3 and 5 (scenario S6). -/
def demoStopState : ClientState :=
  { conns := [(2, 20), (3, 21), (5, 22)], sentFrames := [],
    destroyedSessions := [], running := true, listenerEnabled := true,
    exitTimer := none, loopBroken := false }

/-! ## Helper lemmas -/

/-- `readKcpMsg` on fewer than 4 buffered bytes: need more, nothing consumed. -/
lemma readKcpMsg_short (buf : List Nat) (h : buf.length < 4) :
    readKcpMsg buf = ⟨false, buf, none⟩ := by
  unfold readKcpMsg
  rw [if_pos h]

/-- `readKcpMsg` when fewer than `msglen` bytes are buffered: need more,
nothing consumed. -/
lemma readKcpMsg_needMore (buf : List Nat) (h4 : ¬ buf.length < 4)
    (h : buf.length < getLE16 (buf.getD 0 0) (buf.getD 1 0)) :
    readKcpMsg buf = ⟨false, buf, none⟩ := by
  unfold readKcpMsg
  rw [if_neg h4, if_pos h]

/-- `readKcpMsg` when a whole frame is buffered: consume `msglen` bytes. -/
lemma readKcpMsg_success (buf : List Nat) (h4 : ¬ buf.length < 4)
    (h : ¬ buf.length < getLE16 (buf.getD 0 0) (buf.getD 1 0)) :
    readKcpMsg buf =
      ⟨true, buf.drop (getLE16 (buf.getD 0 0) (buf.getD 1 0)),
        some ⟨getLE16 (buf.getD 0 0) (buf.getD 1 0),
              getLE16 (buf.getD 2 0) (buf.getD 3 0),
              buf.take (getLE16 (buf.getD 0 0) (buf.getD 1 0))⟩⟩ := by
  unfold readKcpMsg
  rw [if_neg h4, if_neg h]

/-- A data frame as an explicit byte list. -/
lemma kcpDataMsg_cons (i : Nat) (b : List Nat) :
    kcpDataMsg i b =
      (4 + b.length) % 256 :: (4 + b.length) / 256 % 256 ::
        i % 256 :: i / 256 % 256 :: b := by
  simp [kcpDataMsg, putLE16]

/-- Length of a data frame. -/
lemma kcpDataMsg_length (i : Nat) (b : List Nat) :
    (kcpDataMsg i b).length = 4 + b.length := by
  rw [kcpDataMsg_cons]
  simp
  omega

/-- Reading back the two low-order little-endian bytes of a 16-bit value. -/
lemma getLE16_split (v : Nat) (hv : v < 65536) :
    getLE16 (v % 256) (v / 256 % 256) = v := by
  unfold getLE16
  omega

/-! ## Claim theorems -/

/-- C1: for every byte sequence `b` of length at most 65531 and every
connection index `i ≠ 0` (a 16-bit value), encoding `b` as a single data
frame for `i` — exactly the frame the supervisor builds for one chunk of
TCP input, since on such `b` `handleIncomingTCPMesasge` emits that one
frame — and running the frame decoder on the result succeeds, yields the
pair `(i, b)`, and leaves no trailing bytes in the buffer. -/
theorem frame_data_roundtrip (i : Nat) (b : List Nat) (hi0 : i ≠ 0)
    (hi : i < 65536) (hb : b.length ≤ 65531) :
    (readKcpMsg (kcpDataMsg i b)).ok = true ∧
    ((readKcpMsg (kcpDataMsg i b)).frame.map fun f => (f.connIdx, f.msg.drop 4)) =
      some (i, b) ∧
    (readKcpMsg (kcpDataMsg i b)).buf = [] ∧
    (b ≠ [] → handleIncomingTCPMesasge i b = [kcpDataMsg i b]) := by
  have hlen := kcpDataMsg_length i b
  have h0 : (kcpDataMsg i b).getD 0 0 = (4 + b.length) % 256 := by
    rw [kcpDataMsg_cons]; rfl
  have h1 : (kcpDataMsg i b).getD 1 0 = (4 + b.length) / 256 % 256 := by
    rw [kcpDataMsg_cons]; rfl
  have h2 : (kcpDataMsg i b).getD 2 0 = i % 256 := by
    rw [kcpDataMsg_cons]; rfl
  have h3 : (kcpDataMsg i b).getD 3 0 = i / 256 % 256 := by
    rw [kcpDataMsg_cons]; rfl
  have hml : getLE16 ((kcpDataMsg i b).getD 0 0) ((kcpDataMsg i b).getD 1 0) =
      4 + b.length := by
    rw [h0, h1]
    exact getLE16_split _ (by omega)
  have hci : getLE16 ((kcpDataMsg i b).getD 2 0) ((kcpDataMsg i b).getD 3 0) = i := by
    rw [h2, h3]
    exact getLE16_split _ hi
  have hres := readKcpMsg_success (kcpDataMsg i b)
      (by omega) (by rw [hml]; omega)
  rw [hml, hci, ← hlen, List.drop_length, List.take_length] at hres
  refine ⟨by rw [hres], ?_, by rw [hres], ?_⟩
  · rw [hres]
    simp only [Option.map_some]
    rw [kcpDataMsg_cons]
    simp
  · intro hb0
    rw [handleIncomingTCPMesasge]
    have hne : ¬ b.length = 0 := by
      simpa [List.length_eq_zero] using hb0
    rw [dif_neg hne]
    have hmin : min maxMsgLen b.length = b.length := by
      simp only [maxMsgLen]
      omega
    rw [hmin]
    show kcpDataMsg i (List.take b.length b) ::
        handleIncomingTCPMesasge i (List.drop b.length b) = [kcpDataMsg i b]
    rw [List.take_length, List.drop_length]
    rw [handleIncomingTCPMesasge]
    rfl

/-- C1 witness: the round trip at index 2 on the five bytes of `"hello"`
(scenario S3 of the spec). -/
theorem frame_data_roundtrip_witness :
    ((readKcpMsg (kcpDataMsg 2 [104, 101, 108, 108, 111])).frame.map
        fun f => (f.connIdx, f.msg.drop 4)) = some (2, [104, 101, 108, 108, 111]) ∧
    (readKcpMsg (kcpDataMsg 2 [104, 101, 108, 108, 111])).buf = [] ∧
    handleIncomingTCPMesasge 2 [104, 101, 108, 108, 111] =
      [kcpDataMsg 2 [104, 101, 108, 108, 111]] := by
  have h := frame_data_roundtrip 2 [104, 101, 108, 108, 111]
      (by decide) (by decide) (by decide)
  exact ⟨h.2.1, h.2.2.1, h.2.2.2 (by decide)⟩

/-- C2: one decode step of `readKcpMsg` succeeds if and only if at least
4 bytes are buffered and the buffer holds at least `len` bytes, where
`len` is the little-endian 16-bit value of the first two bytes; on
success exactly that one frame (`len` bytes) is consumed, and in every
other case the step reports need-more and leaves the buffer unchanged,
consuming nothing. -/
theorem readKcpMsg_step_contract (buf : List Nat) :
    ((readKcpMsg buf).ok = true ↔
        4 ≤ buf.length ∧ getLE16 (buf.getD 0 0) (buf.getD 1 0) ≤ buf.length) ∧
    ((readKcpMsg buf).ok = true →
        (readKcpMsg buf).buf = buf.drop (getLE16 (buf.getD 0 0) (buf.getD 1 0)) ∧
        (readKcpMsg buf).frame =
          some ⟨getLE16 (buf.getD 0 0) (buf.getD 1 0),
                getLE16 (buf.getD 2 0) (buf.getD 3 0),
                buf.take (getLE16 (buf.getD 0 0) (buf.getD 1 0))⟩) ∧
    ((readKcpMsg buf).ok = false →
        (readKcpMsg buf).buf = buf ∧ (readKcpMsg buf).frame = none) := by
  by_cases h4 : buf.length < 4
  · rw [readKcpMsg_short buf h4]
    exact ⟨⟨fun hh => by simp at hh, fun hh => absurd hh.1 (by omega)⟩,
           fun hh => by simp at hh, fun _ => ⟨rfl, rfl⟩⟩
  · by_cases hm : buf.length < getLE16 (buf.getD 0 0) (buf.getD 1 0)
    · rw [readKcpMsg_needMore buf h4 hm]
      exact ⟨⟨fun hh => by simp at hh, fun hh => absurd hh.2 (by omega)⟩,
             fun hh => by simp at hh, fun _ => ⟨rfl, rfl⟩⟩
    · rw [readKcpMsg_success buf h4 hm]
      exact ⟨⟨fun _ => ⟨by omega, by omega⟩, fun _ => rfl⟩,
             fun _ => ⟨rfl, rfl⟩, fun hh => by simp at hh⟩

/-- C2 witness: a complete 6-byte frame is consumed whole; a 3-byte
buffer is left untouched with need-more. -/
theorem readKcpMsg_step_contract_witness :
    (readKcpMsg [6, 0, 2, 0, 104, 105]).buf = [] ∧
    (readKcpMsg [6, 0, 2, 0, 104, 105]).frame =
      some ⟨6, 2, [6, 0, 2, 0, 104, 105]⟩ ∧
    (readKcpMsg [6, 0, 2]).ok = false ∧
    (readKcpMsg [6, 0, 2]).buf = [6, 0, 2] := by
  have h1 := (readKcpMsg_step_contract [6, 0, 2, 0, 104, 105]).2.1 (by decide)
  have h2 := (readKcpMsg_step_contract [6, 0, 2]).2.2 (by decide)
  refine ⟨?_, ?_, by decide, h2.1⟩
  · rw [h1.1]; decide
  · rw [h1.2]; decide

/-- C3 (refuting the claim, exhibiting the code's behaviour): on the
buffer `[3, 0, 7, 0]`, whose head frame has `len = 3 < 4`, the decoder
does not fail the session — it has no error result at all: it returns
success (`true`), consumes 3 bytes, and dispatches the frame as a data
message for index 7 whose length argument `msg.size() - 4` underflows in
`size_t` to `2 ^ 64 - 1`, far beyond the 3 bytes actually held. -/
theorem readKcpMsg_short_len_no_failure :
    (readKcpMsg [3, 0, 7, 0]).ok = true ∧
    (readKcpMsg [3, 0, 7, 0]).frame = some ⟨3, 7, [3, 0, 7]⟩ ∧
    (handleKcpMsgArgs ⟨3, 7, [3, 0, 7]⟩).1 = 7 ∧
    (handleKcpMsgArgs ⟨3, 7, [3, 0, 7]⟩).2 = 2 ^ 64 - 1 ∧
    (⟨3, 7, [3, 0, 7]⟩ : KcpFrame).msg.length < (handleKcpMsgArgs ⟨3, 7, [3, 0, 7]⟩).2 := by
  refine ⟨by decide, by decide, by decide, ?_, ?_⟩ <;>
    simp [handleKcpMsgArgs, sizeT_sub]

/-- C4: `handleIncomingTCPMesasge` chunking law — the payloads of the
emitted data frames, concatenated in emission order, are exactly the
input bytes; every emitted frame's payload is non-empty and at most
65531 bytes; an empty input emits no frame. -/
theorem handleIncomingTCPMesasge_chunking (connIdx : Nat) (msg : List Nat) :
    concatBytes ((handleIncomingTCPMesasge connIdx msg).map fun f => f.drop 4) = msg ∧
    (∀ f ∈ handleIncomingTCPMesasge connIdx msg,
        0 < (f.drop 4).length ∧ (f.drop 4).length ≤ 65531) ∧
    (msg = [] → handleIncomingTCPMesasge connIdx msg = []) := by
  have hdrop : ∀ (i : Nat) (c : List Nat), (kcpDataMsg i c).drop 4 = c := by
    intro i c
    rw [kcpDataMsg_cons]
    rfl
  have main : ∀ (n : Nat) (m : List Nat), m.length ≤ n →
      concatBytes ((handleIncomingTCPMesasge connIdx m).map fun f => f.drop 4) = m ∧
      (∀ f ∈ handleIncomingTCPMesasge connIdx m,
          0 < (f.drop 4).length ∧ (f.drop 4).length ≤ 65531) := by
    intro n
    induction n with
    | zero =>
      intro m hm
      have hm0 : m.length = 0 := by omega
      rw [handleIncomingTCPMesasge, dif_pos hm0]
      refine ⟨?_, by simp⟩
      simp only [List.map_nil]
      rw [show concatBytes [] = [] from rfl]
      exact (List.length_eq_zero.mp hm0).symm
    | succ n ih =>
      intro m hm
      by_cases hm0 : m.length = 0
      · rw [handleIncomingTCPMesasge, dif_pos hm0]
        refine ⟨?_, by simp⟩
        simp only [List.map_nil]
        rw [show concatBytes [] = [] from rfl]
        exact (List.length_eq_zero.mp hm0).symm
      · rw [handleIncomingTCPMesasge, dif_neg hm0]
        show concatBytes
            ((kcpDataMsg connIdx (m.take (min maxMsgLen m.length)) ::
              handleIncomingTCPMesasge connIdx (m.drop (min maxMsgLen m.length))).map
              fun f => f.drop 4) = m ∧ _
        have hlt : (m.drop (min maxMsgLen m.length)).length ≤ n := by
          simp only [List.length_drop, maxMsgLen]
          omega
        obtain ⟨ih1, ih2⟩ := ih (m.drop (min maxMsgLen m.length)) hlt
        constructor
        · simp only [List.map_cons]
          rw [show ∀ (x : List Nat) (l : List (List Nat)),
                concatBytes (x :: l) = x ++ concatBytes l from fun _ _ => rfl]
          rw [hdrop, ih1, List.take_append_drop]
        · intro f hf
          rcases List.mem_cons.mp hf with hf | hf
          · subst hf
            rw [hdrop]
            simp only [List.length_take, maxMsgLen]
            constructor <;> omega
          · exact ih2 f hf
  refine ⟨(main msg.length msg le_rfl).1, (main msg.length msg le_rfl).2, ?_⟩
  intro h
  subst h
  rw [handleIncomingTCPMesasge]
  rfl

/-- C4 witness: a three-byte input yields frames whose payloads
concatenate back to it, and the empty input emits no frame. -/
theorem handleIncomingTCPMesasge_chunking_witness :
    concatBytes ((handleIncomingTCPMesasge 2 [1, 2, 3]).map fun f => f.drop 4) =
      [1, 2, 3] ∧
    handleIncomingTCPMesasge 2 [] = [] := by
  exact ⟨(handleIncomingTCPMesasge_chunking 2 [1, 2, 3]).1,
         (handleIncomingTCPMesasge_chunking 2 []).2.2 rfl⟩

/-- The `static uint16_t` accept counter in closed form. -/
lemma connIdxCounter_closed (n : Nat) : connIdxCounter n = (1 + n) % 65536 := by
  induction n with
  | zero => rfl
  | succ n ih =>
    show listenerNextIdx (connIdxCounter n) = (1 + (n + 1)) % 65536
    rw [ih]
    unfold listenerNextIdx
    omega

/-- C5 (refuting the claim, exhibiting the code's behaviour): the first
accept is indeed issued index 2, but the unguarded `uint16_t` counter of
`listenerCallback` wraps: the 65535-th accept is issued the reserved
index 0, and the 65536-th accept is issued 1 again — the code neither
skips 0 nor checks the table for collisions. -/
theorem listener_connIdx_wraps_to_zero :
    connIdxCounter 1 = 2 ∧ connIdxCounter 65535 = 0 ∧ connIdxCounter 65536 = 1 := by
  refine ⟨by decide, ?_, ?_⟩ <;> rw [connIdxCounter_closed]

/-- A CLOSE_CONN frame as an explicit byte list. -/
lemma kcpCloseMsg_cons (i : Nat) :
    kcpCloseMsg i = [7, 0, 0, 0, 1, i % 256, i / 256 % 256] := by
  simp [kcpCloseMsg, putLE16, KCP_MSG_CONNIDX_NONE, KCP_MSG_TYPE_CLOSE_CONN]

/-- The victim index parsed from a CLOSE_CONN frame is the index encoded
into it (bytes 5–6, little-endian). -/
lemma kcpCloseMsg_parse_idx (i : Nat) (hi : i < 65536) :
    getLE16 ((kcpCloseMsg i).getD 5 0) ((kcpCloseMsg i).getD 6 0) = i := by
  rw [kcpCloseMsg_cons]
  exact getLE16_split i hi

/-- C6: on receipt of a remote CLOSE_CONN frame for index `i`: if `i` is
in the connection table, the session stored there is destroyed, `i` is
removed, and no outbound frame is emitted (all other state, `sentFrames`
included, is unchanged); if `i` is not in the table, the frame is
discarded and the state — table and outbound stream included — is
exactly unchanged. -/
theorem closeConn_remote_contract (st : ClientState) (i : Nat) (hi : i < 65536) :
    (∀ sid, connsFind st.conns i = some sid →
        handleKcpMsg_closeConn st (kcpCloseMsg i) =
          { st with conns := connsErase st.conns i,
                    destroyedSessions := st.destroyedSessions ++ [sid] }) ∧
    (connsFind st.conns i = none →
        handleKcpMsg_closeConn st (kcpCloseMsg i) = st) := by
  constructor
  · intro sid hfind
    unfold handleKcpMsg_closeConn
    rw [kcpCloseMsg_parse_idx i hi, hfind]
    rfl
  · intro hfind
    unfold handleKcpMsg_closeConn
    rw [kcpCloseMsg_parse_idx i hi, hfind]

/-- C6 witness: in a table with indices {2, 5}, a remote close for 2
removes exactly index 2, destroys session 9 and emits nothing, while a
remote close for 7 changes nothing. -/
theorem closeConn_remote_contract_witness :
    handleKcpMsg_closeConn demoTableState (kcpCloseMsg 2) =
      { conns := [(5, 11)], sentFrames := [], destroyedSessions := [9],
        running := true, listenerEnabled := true, exitTimer := none,
        loopBroken := false } ∧
    handleKcpMsg_closeConn demoTableState (kcpCloseMsg 7) = demoTableState := by
  constructor
  · rw [(closeConn_remote_contract demoTableState 2 (by decide)).1 9 (by decide)]
    decide
  · exact (closeConn_remote_contract demoTableState 7 (by decide)).2 (by decide)

/-- C9 (refuting the claim, exhibiting the code's behaviour): removal is
not idempotent.  Starting from a table holding only index 2, the first
`removeConnection(session, true)` empties the table and emits one
CLOSE_CONN frame; a second `removeConnection` for the same index is not
a no-op: `sendKcpCloseMsg` runs before any table lookup, so a second
CLOSE_CONN frame is emitted (and the already-deleted session is deleted
again). -/
theorem removeConnection_second_remove_emits_again :
    (removeConnection demoC9State (2, 1) true).conns = [] ∧
    (removeConnection demoC9State (2, 1) true).sentFrames = [kcpCloseMsg 2] ∧
    removeConnection (removeConnection demoC9State (2, 1) true) (2, 1) true ≠
      removeConnection demoC9State (2, 1) true ∧
    (removeConnection (removeConnection demoC9State (2, 1) true) (2, 1) true).sentFrames =
      [kcpCloseMsg 2, kcpCloseMsg 2] ∧
    (removeConnection (removeConnection demoC9State (2, 1) true) (2, 1) true).destroyedSessions =
      [1, 1] := by
  decide

/-- C10 (refuting the claim, exhibiting the code's behaviour): on the
reassembly buffer `[0, 0, 0, 0]` (head frame with `len = 0`) a decode
step succeeds yet consumes nothing — the buffered byte count does not
decrease — so the `while (readKcpMsg()) {}` loop never terminates: after
any number of iterations the buffer is unchanged and the next step still
returns `true`. -/
theorem readKcpMsg_loop_stuck_on_zero_len :
    (readKcpMsg [0, 0, 0, 0]).ok = true ∧
    (readKcpMsg [0, 0, 0, 0]).buf = [0, 0, 0, 0] ∧
    ∀ n, readKcpLoop n [0, 0, 0, 0] = [0, 0, 0, 0] := by
  have hstep : readKcpMsg [0, 0, 0, 0] = ⟨true, [0, 0, 0, 0], some ⟨0, 0, []⟩⟩ := by
    decide
  refine ⟨by rw [hstep], by rw [hstep], ?_⟩
  intro n
  induction n with
  | zero => rfl
  | succ n ih =>
    show (if (readKcpMsg [0, 0, 0, 0]).ok then
        readKcpLoop n (readKcpMsg [0, 0, 0, 0]).buf else [0, 0, 0, 0]) = [0, 0, 0, 0]
    rw [hstep]
    exact ih

/-- A list of length 12 is an explicit 12-element list. -/
lemma length12_decomp (p : List Nat) (h : p.length = 12) :
    ∃ b0 b1 b2 b3 b4 b5 b6 b7 b8 b9 b10 b11,
      p = [b0, b1, b2, b3, b4, b5, b6, b7, b8, b9, b10, b11] := by
  obtain ⟨b0, p, rfl⟩ := p.exists_of_length_succ (show p.length = 11 + 1 from h)
  simp only [List.length_cons] at h
  obtain ⟨b1, p, rfl⟩ := p.exists_of_length_succ (show p.length = 10 + 1 by omega)
  simp only [List.length_cons] at h
  obtain ⟨b2, p, rfl⟩ := p.exists_of_length_succ (show p.length = 9 + 1 by omega)
  simp only [List.length_cons] at h
  obtain ⟨b3, p, rfl⟩ := p.exists_of_length_succ (show p.length = 8 + 1 by omega)
  simp only [List.length_cons] at h
  obtain ⟨b4, p, rfl⟩ := p.exists_of_length_succ (show p.length = 7 + 1 by omega)
  simp only [List.length_cons] at h
  obtain ⟨b5, p, rfl⟩ := p.exists_of_length_succ (show p.length = 6 + 1 by omega)
  simp only [List.length_cons] at h
  obtain ⟨b6, p, rfl⟩ := p.exists_of_length_succ (show p.length = 5 + 1 by omega)
  simp only [List.length_cons] at h
  obtain ⟨b7, p, rfl⟩ := p.exists_of_length_succ (show p.length = 4 + 1 by omega)
  simp only [List.length_cons] at h
  obtain ⟨b8, p, rfl⟩ := p.exists_of_length_succ (show p.length = 3 + 1 by omega)
  simp only [List.length_cons] at h
  obtain ⟨b9, p, rfl⟩ := p.exists_of_length_succ (show p.length = 2 + 1 by omega)
  simp only [List.length_cons] at h
  obtain ⟨b10, p, rfl⟩ := p.exists_of_length_succ (show p.length = 1 + 1 by omega)
  simp only [List.length_cons] at h
  obtain ⟨b11, p, rfl⟩ := p.exists_of_length_succ (show p.length = 0 + 1 by omega)
  simp only [List.length_cons] at h
  have hp : p = [] := List.length_eq_zero.mp (by omega)
  subst hp
  exact ⟨b0, b1, b2, b3, b4, b5, b6, b7, b8, b9, b10, b11, rfl⟩

/-- `getLE32` at offset 0 of an explicit 12-byte list. -/
lemma getLE32_twelve_0 (b0 b1 b2 b3 b4 b5 b6 b7 b8 b9 b10 b11 : Nat) :
    getLE32 [b0, b1, b2, b3, b4, b5, b6, b7, b8, b9, b10, b11] 0 =
      b0 % 256 + 256 * (b1 % 256) + 65536 * (b2 % 256) + 16777216 * (b3 % 256) := rfl

/-- `getLE32` at offset 4 of an explicit 12-byte list. -/
lemma getLE32_twelve_4 (b0 b1 b2 b3 b4 b5 b6 b7 b8 b9 b10 b11 : Nat) :
    getLE32 [b0, b1, b2, b3, b4, b5, b6, b7, b8, b9, b10, b11] 4 =
      b4 % 256 + 256 * (b5 % 256) + 65536 * (b6 % 256) + 16777216 * (b7 % 256) := rfl

/-- `getLE32` at offset 8 of an explicit 12-byte list. -/
lemma getLE32_twelve_8 (b0 b1 b2 b3 b4 b5 b6 b7 b8 b9 b10 b11 : Nat) :
    getLE32 [b0, b1, b2, b3, b4, b5, b6, b7, b8, b9, b10, b11] 8 =
      b8 % 256 + 256 * (b9 % 256) + 65536 * (b10 % 256) + 16777216 * (b11 % 256) := rfl

/-- The handshake datagram as an explicit byte list. -/
lemma sendInitKCPConvPkg_cons (conv : Nat) :
    sendInitKCPConvPkg conv =
      [0, 0, 0, 0, conv % 256, conv / 256 % 256, conv / 65536 % 256,
        conv / 16777216 % 256, (conv + 1) % 256, (conv + 1) / 256 % 256,
        (conv + 1) / 65536 % 256, (conv + 1) / 16777216 % 256] := by
  simp [sendInitKCPConvPkg, putLE32]

/-- C7: before handshake completion, a received UDP datagram sets
`isInitKCPConv_` (handshake complete) if and only if it is exactly the
12 bytes `00 00 00 00 | conv(LE32) | conv+1(LE32)` — the very datagram
`sendInitKCPConvPkg` builds; and as long as the conversation is not
acknowledged and the 10-second budget has not elapsed, each firing of
the 1-second handshake timer retransmits that same 12-byte datagram
(once acknowledged, the timer breaks the handshake loop). -/
theorem handshake_contract (conv : Nat) (p : List Nat) (hconv : conv < 2 ^ 32)
    (hp : ∀ x ∈ p, x < 256) :
    (handshakeMatches conv p = true ↔ p = sendInitKCPConvPkg conv) ∧
    (∀ now startTime : Nat, now ≤ startTime + 10 →
        checkInitKCP conv false now startTime =
          InitAction.resend (sendInitKCPConvPkg conv)) ∧
    (∀ now startTime : Nat,
        checkInitKCP conv true now startTime = InitAction.loopBreak) := by
  refine ⟨⟨?_, ?_⟩, ?_, fun now s => rfl⟩
  · intro hm
    simp only [handshakeMatches, Bool.and_eq_true, beq_iff_eq] at hm
    obtain ⟨hlen, hrecv⟩ := hm
    obtain ⟨b0, b1, b2, b3, b4, b5, b6, b7, b8, b9, b10, b11, rfl⟩ :=
      length12_decomp p hlen
    have h0 : b0 < 256 := hp b0 (by simp)
    have h1 : b1 < 256 := hp b1 (by simp)
    have h2 : b2 < 256 := hp b2 (by simp)
    have h3 : b3 < 256 := hp b3 (by simp)
    have h4 : b4 < 256 := hp b4 (by simp)
    have h5 : b5 < 256 := hp b5 (by simp)
    have h6 : b6 < 256 := hp b6 (by simp)
    have h7 : b7 < 256 := hp b7 (by simp)
    have h8 : b8 < 256 := hp b8 (by simp)
    have h9 : b9 < 256 := hp b9 (by simp)
    have h10 : b10 < 256 := hp b10 (by simp)
    have h11 : b11 < 256 := hp b11 (by simp)
    simp only [recvInitKCPConvPkg, getLE32_twelve_0, getLE32_twelve_4,
      getLE32_twelve_8, Bool.and_eq_true, beq_iff_eq] at hrecv
    rw [sendInitKCPConvPkg_cons]
    simp only [List.cons.injEq, and_true]
    omega
  · intro he
    subst he
    rw [sendInitKCPConvPkg_cons]
    simp only [handshakeMatches, recvInitKCPConvPkg, getLE32_twelve_0,
      getLE32_twelve_4, getLE32_twelve_8, List.length_cons, List.length_nil,
      Bool.and_eq_true, beq_iff_eq]
    exact ⟨trivial, ⟨trivial, by omega⟩, by omega⟩
  · intro now s hle
    unfold checkInitKCP
    rw [if_neg (by simp), if_neg (by omega)]

/-- C7 witness: scenario S1 — with `conv = 0x12345678` the echoed bytes
`00 00 00 00 78 56 34 12 79 56 34 12` complete the handshake, a timer
firing before acknowledgement resends exactly those bytes, and after
acknowledgement the timer breaks the loop. -/
theorem handshake_contract_witness :
    handshakeMatches 305419896
      [0, 0, 0, 0, 120, 86, 52, 18, 121, 86, 52, 18] = true ∧
    checkInitKCP 305419896 false 3 0 =
      InitAction.resend [0, 0, 0, 0, 120, 86, 52, 18, 121, 86, 52, 18] ∧
    checkInitKCP 305419896 true 3 0 = InitAction.loopBreak := by
  have hbytes : sendInitKCPConvPkg 305419896 =
      [0, 0, 0, 0, 120, 86, 52, 18, 121, 86, 52, 18] := by decide
  have h := handshake_contract 305419896
      [0, 0, 0, 0, 120, 86, 52, 18, 121, 86, 52, 18] (by norm_num) (by decide)
  refine ⟨h.1.mpr hbytes.symm, ?_, h.2.2 3 0⟩
  have h2 := h.2.1 3 0 (by omega)
  rw [hbytes] at h2
  exact h2

/-- `removeConnection` never changes `running`. -/
lemma removeConnection_running (st : ClientState) (s : Nat × Nat) (b : Bool) :
    (removeConnection st s b).running = st.running := by
  cases b <;> rfl

/-- `removeConnection` never changes `listenerEnabled`. -/
lemma removeConnection_listenerEnabled (st : ClientState) (s : Nat × Nat) (b : Bool) :
    (removeConnection st s b).listenerEnabled = st.listenerEnabled := by
  cases b <;> rfl

/-- `removeConnection` erases exactly the session's index from the table. -/
lemma removeConnection_conns (st : ClientState) (s : Nat × Nat) (b : Bool) :
    (removeConnection st s b).conns = connsErase st.conns s.1 := by
  cases b <;> rfl

/-- `removeConnection` with the close flag emits exactly one CLOSE_CONN. -/
lemma removeConnection_sentFrames_true (st : ClientState) (s : Nat × Nat) :
    (removeConnection st s true).sentFrames = st.sentFrames ++ [kcpCloseMsg s.1] := rfl

/-- The shutdown fold preserves `running`. -/
lemma foldl_remove_running (l : List (Nat × Nat)) :
    ∀ st : ClientState,
      (l.foldl (fun s c => removeConnection s c true) st).running = st.running := by
  induction l with
  | nil => intro st; rfl
  | cons c l ih =>
    intro st
    rw [List.foldl_cons, ih, removeConnection_running]

/-- The shutdown fold preserves `listenerEnabled`. -/
lemma foldl_remove_listenerEnabled (l : List (Nat × Nat)) :
    ∀ st : ClientState,
      (l.foldl (fun s c => removeConnection s c true) st).listenerEnabled =
        st.listenerEnabled := by
  induction l with
  | nil => intro st; rfl
  | cons c l ih =>
    intro st
    rw [List.foldl_cons, ih, removeConnection_listenerEnabled]

/-- The shutdown fold emits exactly one CLOSE_CONN per iterated entry,
in iteration order. -/
lemma foldl_remove_sentFrames (l : List (Nat × Nat)) :
    ∀ st : ClientState,
      (l.foldl (fun s c => removeConnection s c true) st).sentFrames =
        st.sentFrames ++ l.map (fun c => kcpCloseMsg c.1) := by
  induction l with
  | nil => intro st; simp
  | cons c l ih =>
    intro st
    rw [List.foldl_cons, ih, removeConnection_sentFrames_true]
    simp

/-- The shutdown fold erases the indices of the iterated entries,
in order, from the table. -/
lemma foldl_remove_conns (l : List (Nat × Nat)) :
    ∀ st : ClientState,
      (l.foldl (fun s c => removeConnection s c true) st).conns =
        l.foldl (fun t c => connsErase t c.1) st.conns := by
  induction l with
  | nil => intro st; rfl
  | cons c l ih =>
    intro st
    rw [List.foldl_cons, List.foldl_cons, ih, removeConnection_conns]

/-- Folding `connsErase` over a key list filters the table down to the
entries whose key is hit by none of them. -/
lemma foldl_connsErase_filter (l : List (Nat × Nat)) :
    ∀ t : List (Nat × Nat),
      l.foldl (fun t c => connsErase t c.1) t =
        t.filter (fun p => l.all (fun c => p.1 != c.1)) := by
  induction l with
  | nil =>
    intro t
    simp
  | cons c l ih =>
    intro t
    rw [List.foldl_cons, ih, connsErase, List.filter_filter]
    apply List.filter_congr
    intro x _
    rw [Bool.and_comm]
    rfl

/-- Erasing every key of a table from the table itself empties it. -/
lemma foldl_connsErase_self (l : List (Nat × Nat)) :
    l.foldl (fun t c => connsErase t c.1) l = [] := by
  rw [foldl_connsErase_filter]
  rw [List.filter_eq_nil_iff]
  intro a ha
  simp only [List.all_eq_true, bne_iff_ne, ne_eq, not_forall]
  exact ⟨a, ⟨ha, by simp⟩⟩

/-- C8: calling `stop` when already stopped changes nothing; otherwise
`stop` clears `running`, disables the listener, removes every connection
from the table, emits exactly one CLOSE_CONN frame per table entry (in
particular three frames when indices {2, 3, 5} are live — see the
witness), and arms the one-shot 3-second exit timer whose callback
breaks the event loop. -/
theorem stop_contract (st : ClientState) :
    (st.running = false → stop st = st) ∧
    (st.running = true →
        (stop st).running = false ∧
        (stop st).listenerEnabled = false ∧
        (stop st).conns = [] ∧
        (stop st).sentFrames =
          st.sentFrames ++ st.conns.map (fun c => kcpCloseMsg c.1) ∧
        (stop st).exitTimer = some 3 ∧
        (exitLoop (stop st)).loopBroken = true) := by
  constructor
  · intro h
    unfold stop
    rw [if_pos h]
  · intro h
    have hni : ¬ (st.running = false) := by rw [h]; simp
    unfold stop
    rw [if_neg hni]
    refine ⟨?_, ?_, ?_, ?_, rfl, rfl⟩
    · show (List.foldl (fun s c => removeConnection s c true)
          { st with running := false, listenerEnabled := false } st.conns).running = false
      rw [foldl_remove_running]
    · show (List.foldl (fun s c => removeConnection s c true)
          { st with running := false, listenerEnabled := false } st.conns).listenerEnabled = false
      rw [foldl_remove_listenerEnabled]
    · show (List.foldl (fun s c => removeConnection s c true)
          { st with running := false, listenerEnabled := false } st.conns).conns = []
      rw [foldl_remove_conns]
      exact foldl_connsErase_self st.conns
    · show (List.foldl (fun s c => removeConnection s c true)
          { st with running := false, listenerEnabled := false } st.conns).sentFrames =
        st.sentFrames ++ st.conns.map (fun c => kcpCloseMsg c.1)
      rw [foldl_remove_sentFrames]

/-- C8 witness: scenario S6 — with indices {2, 3, 5} live, `stop` emits
exactly the three CLOSE_CONN frames, empties the table, clears
`running`, arms the 3-second timer, and its callback breaks the loop;
and `stop` on the stopped result is a no-op. -/
theorem stop_contract_witness :
    (stop demoStopState).sentFrames =
      [kcpCloseMsg 2, kcpCloseMsg 3, kcpCloseMsg 5] ∧
    (stop demoStopState).conns = [] ∧
    (stop demoStopState).running = false ∧
    (stop demoStopState).exitTimer = some 3 ∧
    (exitLoop (stop demoStopState)).loopBroken = true ∧
    stop (stop demoStopState) = stop demoStopState := by
  have h := (stop_contract demoStopState).2 rfl
  refine ⟨?_, h.2.2.1, h.1, h.2.2.2.2.1, h.2.2.2.2.2, ?_⟩
  · rw [h.2.2.2.1]
    rfl
  · exact (stop_contract (stop demoStopState)).1 h.1

end BtcTunnel
